import Mathlib

/-!
# A shallow embedding of the `tabprint` table printer

This file embeds the table data model, the mutation operations, the layout
engine (column-width computation) and the renderer of `src/lib.rs` into Lean,
and proves the testable properties stated for them.

Modelling conventions:
* Rust `String` becomes Lean `String`; `Vec<T>` becomes `List T`; `.len()` on a
  string becomes `String.length` (the character-unit counting the design
  document prescribes; the two agree on all concrete inputs used here).
* Methods on `&mut self` become functions `Table → ... → Table × result`,
  returning the post-state together with the `Result` value; `Err` paths leave
  the state unchanged, exactly as an early `return Err(..)` does in the source.
* Out-of-bounds `Vec` indexing, which panics in the source, is represented by
  an explicit `panic` outcome where a claim depends on it (`set_element`), and
  by `List.getD` with a default where the design document's invariant makes the
  access in-bounds (the renderer; the in-boundedness is proved separately).
* The byte sink (`Write`) is modelled at the byte level as `List Nat`
  (byte values `< 256`), with a hand-written UTF-8 encoder/decoder pair used
  for the `StringWriter` realization.
-/

namespace Tabprint

/-- Platform line terminator (`LINEFEED` in the source; the unix build `"\n"`). -/
def LINEFEED : String := "\n"

/-- A type representing a row in a table (`pub type Row = Vec<String>`). -/
abbrev Row := List String

/-- A struct representing a printable table (`struct Table`). -/
structure Table where
  num_cols : Nat
  titles : List String
  rows : List Row
  col_sep : Char
  line_sep : Char
  sep_cross : Char
deriving Repr, DecidableEq

/-- `Table::new`: a table whose column count is the number of `titles`. -/
def Table.new (titles : List String) : Table :=
  { num_cols := titles.length
    titles := titles
    rows := []
    col_sep := '|'
    line_sep := '-'
    sep_cross := '+' }

/-- `Table::separators`: change the three separator characters. -/
def Table.separators (t : Table) (col line cross : Char) : Table :=
  { t with col_sep := col, line_sep := line, sep_cross := cross }

/-- `Table::get_column_num`. -/
def Table.get_column_num (t : Table) : Nat := t.num_cols

/-- `Table::len`: the number of rows. -/
def Table.len (t : Table) : Nat := t.rows.length

/-- `Table::add_row`: append `row` if its length matches the column count;
the mutable reference the source returns on success is modelled by the index
of the pushed row (`self.rows.len() - 1`). -/
def Table.add_row (t : Table) (row : Row) : Table × Except String Nat :=
  if row.length ≠ t.num_cols then
    (t, .error "Row does not have the proper number of column")
  else
    ({ t with rows := t.rows ++ [row] }, .ok (t.rows.length + 1 - 1))

/-- `Table::add_empty_row`: `add_row` with `num_cols` empty strings. -/
def Table.add_empty_row (t : Table) : Table × Except String Nat :=
  t.add_row (List.replicate t.num_cols "")

/-- Outcome of `Table::set_element`: the two `Err` strings of the source, the
`Ok(())` case, and `panic` for the out-of-bounds `Vec` indexing the source can
reach inside `get_mut_row` / `rowline[column]`. -/
inductive SetElementResult
  | ok
  | columnIndexError
  | rowIndexError
  | panic
deriving Repr, DecidableEq

/-- `Table::set_element` (the `T : ToString` argument is taken already
converted to its display string). The source checks `column >= num_cols`,
then `row > rows.len()`, then executes `self.rows[row][column] = element`,
which panics when `row = rows.len()` (admitted by the laxer `>` check) or when
the target row is shorter than `column + 1`. -/
def Table.set_element (t : Table) (element : String) (column row : Nat) :
    Table × SetElementResult :=
  if column ≥ t.num_cols then
    (t, .columnIndexError)
  else if row > t.rows.length then
    (t, .rowIndexError)
  else if row < t.rows.length ∧ column < (t.rows.getD row []).length then
    ({ t with rows := t.rows.set row ((t.rows.getD row []).set column element) }, .ok)
  else
    (t, .panic)

/-- `Table::remove_row`: remove the row at `row`; silently skip when the index
is out of bounds. -/
def Table.remove_row (t : Table) (row : Nat) : Table :=
  if row < t.rows.length then { t with rows := t.rows.eraseIdx row } else t

/-- `Table::get_col_width`: error when the column index is too high, otherwise
start from the title's length and take each longer row cell in turn. -/
def Table.get_col_width (t : Table) (col_idx : Nat) : Except String Nat :=
  if col_idx ≥ t.num_cols then
    .error "Column index is too high"
  else
    .ok (t.rows.foldl
      (fun width r => if (r.getD col_idx "").length > width then (r.getD col_idx "").length else width)
      (t.titles.getD col_idx "").length)

/-- `Table::print_line_separator`: the cross character, then per column
`col_width[i] + 2` rule characters followed by the cross character, then the
line terminator. -/
def Table.print_line_separator (t : Table) (col_width : List Nat) : String :=
  t.sep_cross.toString
    ++ String.join ((List.range t.num_cols).map fun i =>
        String.join (List.replicate (col_width.getD i 0 + 2) t.line_sep.toString)
          ++ t.sep_cross.toString)
    ++ LINEFEED

/-- `Table::print_line`: the column separator, then per column a space, the
cell, a space, `col_width[i] - line[i].len()` padding spaces and the column
separator, then the line terminator. -/
def Table.print_line (t : Table) (line : List String) (col_width : List Nat) : String :=
  t.col_sep.toString
    ++ String.join ((List.range t.num_cols).map fun i =>
        " " ++ line.getD i "" ++ " "
          ++ String.join (List.replicate (col_width.getD i 0 - (line.getD i "").length) " ")
          ++ t.col_sep.toString)
    ++ LINEFEED

/-- `Result::unwrap` as `print` uses it on `get_col_width`: the `Err` branch
panics in the source and is modelled by `0`; `print` only applies it to `Ok`
values (proved below for claim C10). -/
def unwrapOrZero : Except String Nat → Nat
  | .ok v => v
  | .error _ => 0

/-- The width vector `print` computes before emitting any output. -/
def Table.col_width_vec (t : Table) : List Nat :=
  (List.range t.num_cols).map fun i => unwrapOrZero (t.get_col_width i)

/-- `Table::print`: compute the width vector, then emit rule, title line,
rule, and a content line plus rule per row, in insertion order. The returned
string is the concatenation of everything written to the sink. -/
def Table.print (t : Table) : String :=
  t.print_line_separator t.col_width_vec
    ++ t.print_line t.titles t.col_width_vec
    ++ t.print_line_separator t.col_width_vec
    ++ String.join (t.rows.map fun r =>
        t.print_line r t.col_width_vec ++ t.print_line_separator t.col_width_vec)

/-- The concrete scenario table of the design document: titles
`["Name","Age"]`, rows `["Alice","30"]` and `["Bob","7"]`. -/
def exampleTable : Table :=
  (((Table.new ["Name", "Age"]).add_row ["Alice", "30"]).1.add_row ["Bob", "7"]).1

/-- The structural invariant of the data model: the titles and every row have
length exactly `num_cols`. -/
def Inv (t : Table) : Prop :=
  t.titles.length = t.num_cols ∧ ∀ r ∈ t.rows, r.length = t.num_cols

instance decidableInv (t : Table) : Decidable (Inv t) :=
  inferInstanceAs (Decidable (t.titles.length = t.num_cols ∧ ∀ r ∈ t.rows, r.length = t.num_cols))

/-- The sequence of lines `print` emits, in order: rule, title line, rule,
then for each row in insertion order a content line and a rule. -/
def Table.print_lines (t : Table) : List String :=
  [t.print_line_separator t.col_width_vec,
   t.print_line t.titles t.col_width_vec,
   t.print_line_separator t.col_width_vec]
    ++ t.rows.flatMap fun r =>
        [t.print_line r t.col_width_vec, t.print_line_separator t.col_width_vec]

/-- The UTF-8 encoding of one character, as byte values (what `as_bytes()`
exposes of a one-character string). -/
def utf8EncodeChar (c : Char) : List Nat :=
  let v := c.toNat
  if v < 0x80 then
    [v]
  else if v < 0x800 then
    [0xC0 + v / 64, 0x80 + v % 64]
  else if v < 0x10000 then
    [0xE0 + v / 4096, 0x80 + v / 64 % 64, 0x80 + v % 64]
  else
    [0xF0 + v / 262144, 0x80 + v / 4096 % 64, 0x80 + v / 64 % 64, 0x80 + v % 64]

/-- The UTF-8 byte stream of a string (`str::as_bytes`). -/
def utf8Encode (s : String) : List Nat :=
  s.data.flatMap utf8EncodeChar

/-- Strict UTF-8 validation and decoding, one byte at a time, with the
checks `str::from_utf8` performs. `need` is the number of continuation bytes
the current sequence still expects, `pend` the value accumulated so far and
`lo` the smallest value the current sequence is allowed to produce (smaller
values are overlong forms). Stray leading or missing continuation bytes,
overlong forms, surrogates and values beyond `0x10FFFF` are rejected. -/
def utf8DecodeLoop : List Nat → Nat → Nat → Nat → Option (List Char)
  | [], need, _, _ => if need = 0 then some [] else none
  | b :: bs, need, pend, lo =>
    if need = 0 then
      if b < 0x80 then
        (utf8DecodeLoop bs 0 0 0).map (Char.ofNat b :: ·)
      else if 0xC0 ≤ b ∧ b < 0xE0 then
        utf8DecodeLoop bs 1 (b - 0xC0) 0x80
      else if 0xE0 ≤ b ∧ b < 0xF0 then
        utf8DecodeLoop bs 2 (b - 0xE0) 0x800
      else if 0xF0 ≤ b ∧ b < 0xF8 then
        utf8DecodeLoop bs 3 (b - 0xF0) 0x10000
      else none
    else if 0x80 ≤ b ∧ b < 0xC0 then
      if need = 1 then
        if lo ≤ pend * 64 + (b - 0x80)
            ∧ ¬(0xD800 ≤ pend * 64 + (b - 0x80) ∧ pend * 64 + (b - 0x80) < 0xE000)
            ∧ pend * 64 + (b - 0x80) < 0x110000 then
          (utf8DecodeLoop bs 0 0 0).map (Char.ofNat (pend * 64 + (b - 0x80)) :: ·)
        else none
      else
        utf8DecodeLoop bs (need - 1) (pend * 64 + (b - 0x80)) lo
    else none

/-- Strict UTF-8 decoding of a byte stream into characters. -/
def utf8DecodeChars (bs : List Nat) : Option (List Char) :=
  utf8DecodeLoop bs 0 0 0

/-- UTF-8 decoding of a byte stream into a string. -/
def utf8DecodeString (bs : List Nat) : Option String :=
  (utf8DecodeChars bs).map String.mk

/-- Internal utility for writing data into a string (`struct StringWriter`). -/
structure StringWriter where
  string : String

/-- `StringWriter::new`. -/
def StringWriter.new : StringWriter := ⟨""⟩

/-- `StringWriter::as_string`. -/
def StringWriter.as_string (w : StringWriter) : String := w.string

/-- `impl Write for StringWriter`: decode the written bytes as UTF-8 and
append them to the internal buffer; fail when they are not valid UTF-8. -/
def StringWriter.write (w : StringWriter) (data : List Nat) : Except String StringWriter :=
  match utf8DecodeString data with
  | some s => .ok ⟨w.string ++ s⟩
  | none => .error "Cannot decode utf8 string"

/-- The byte stream the sink-based render sends through a byte sink: the
UTF-8 bytes of every chunk `print` writes, concatenated. -/
def Table.print_bytes (t : Table) : List Nat :=
  utf8Encode t.print

/-- `impl fmt::Display for Table`: print into a fresh `StringWriter` and
return its contents; a write failure becomes `fmt::Error` (`none`). -/
def Table.to_display_string (t : Table) : Option String :=
  match StringWriter.new.write t.print_bytes with
  | .ok w => some w.as_string
  | .error _ => none

/-! ## Helper lemmas about `String.join` -/

theorem foldl_append_eq (l : List String) (a : String) :
    l.foldl (fun r s => r ++ s) a = a ++ String.join l := by
  induction l generalizing a with
  | nil => simp [String.join]
  | cons x xs ih =>
    rw [List.foldl_cons, ih]
    show a ++ x ++ String.join xs = a ++ String.join (x :: xs)
    rw [show String.join (x :: xs) = xs.foldl (fun r s => r ++ s) ("" ++ x) from rfl, ih,
      String.empty_append, String.append_assoc]

theorem join_cons (s : String) (l : List String) :
    String.join (s :: l) = s ++ String.join l := by
  show (s :: l).foldl (fun r s => r ++ s) "" = s ++ String.join l
  rw [List.foldl_cons, foldl_append_eq, String.empty_append]

theorem join_append (l₁ l₂ : List String) :
    String.join (l₁ ++ l₂) = String.join l₁ ++ String.join l₂ := by
  induction l₁ with
  | nil =>
    show String.join l₂ = "" ++ String.join l₂
    rw [String.empty_append]
  | cons x xs ih =>
    rw [List.cons_append, join_cons, ih, join_cons, String.append_assoc]

theorem length_join (l : List String) :
    (String.join l).length = (l.map String.length).sum := by
  induction l with
  | nil => rfl
  | cons x xs ih => rw [join_cons, String.length_append, ih, List.map_cons, List.sum_cons]

/-! ## C6: `add_row` -/

/-- C6: `add_row` with a row of matching arity appends it at the end (row
count up by one, existing rows kept as a prefix) and succeeds, returning the
index of the pushed row; with a mismatched arity it fails with the row-arity
error and leaves the table unchanged. -/
theorem add_row_appends_or_rejects (t : Table) (row : Row) :
    (row.length = t.num_cols →
      (t.add_row row).1.rows = t.rows ++ [row] ∧
      (t.add_row row).1.len = t.len + 1 ∧
      (t.add_row row).2 = .ok t.rows.length) ∧
    (row.length ≠ t.num_cols →
      (t.add_row row).1 = t ∧
      (t.add_row row).2 = .error "Row does not have the proper number of column") := by
  constructor
  · intro h
    simp [Table.add_row, h, Table.len]
  · intro h
    simp [Table.add_row, h]

/-- Witness for C6 at a concrete table: both the matching-arity and the
mismatched-arity branches. -/
theorem add_row_appends_or_rejects_witness :
    (((Table.new ["a"]).add_row ["x"]).1.rows = (Table.new ["a"]).rows ++ [["x"]] ∧
     ((Table.new ["a"]).add_row ["x"]).1.len = (Table.new ["a"]).len + 1 ∧
     ((Table.new ["a"]).add_row ["x"]).2 = .ok (Table.new ["a"]).rows.length) ∧
    (((Table.new ["a"]).add_row ["x", "y"]).1 = Table.new ["a"] ∧
     ((Table.new ["a"]).add_row ["x", "y"]).2 =
       .error "Row does not have the proper number of column") :=
  ⟨(add_row_appends_or_rejects (Table.new ["a"]) ["x"]).1 (by decide),
   (add_row_appends_or_rejects (Table.new ["a"]) ["x", "y"]).2 (by decide)⟩

/-! ## C7: `remove_row` -/

/-- C7: `remove_row` with an out-of-range index is a no-op; with an in-range
index it removes exactly that row, decreasing the count by one, keeping the
rows before it and shifting every subsequent row's index down by one. -/
theorem remove_row_semantics (t : Table) (row : Nat) :
    (t.rows.length ≤ row → t.remove_row row = t) ∧
    (row < t.rows.length →
      (t.remove_row row).rows = t.rows.take row ++ t.rows.drop (row + 1) ∧
      (t.remove_row row).len = t.len - 1 ∧
      (∀ i, i < row → (t.remove_row row).rows[i]? = t.rows[i]?) ∧
      (∀ i, row ≤ i → (t.remove_row row).rows[i]? = t.rows[i + 1]?)) := by
  refine ⟨fun h => ?_, fun h => ?_⟩
  · simp [Table.remove_row, Nat.not_lt.2 h]
  · have hr : (t.remove_row row).rows = t.rows.take row ++ t.rows.drop (row + 1) := by
      simp [Table.remove_row, h, List.eraseIdx_eq_take_drop_succ]
    have hlen : (t.rows.take row).length = row := by
      simp [Nat.min_eq_left (Nat.le_of_lt h)]
    refine ⟨hr, ?_, ?_, ?_⟩
    · simp [Table.remove_row, h, Table.len, List.length_eraseIdx]
    · intro i hi
      rw [hr, List.getElem?_append, hlen, if_pos hi, List.getElem?_take, if_pos hi]
    · intro i hi
      rw [hr, List.getElem?_append, hlen, if_neg (by omega), List.getElem?_drop]
      congr 1
      omega

/-- Witness for C7 at a concrete table: removing the middle row of three. -/
theorem remove_row_semantics_witness :
    (exampleTable.remove_row 5 = exampleTable) ∧
    ((exampleTable.remove_row 1).rows
        = exampleTable.rows.take 1 ++ exampleTable.rows.drop 2 ∧
      (exampleTable.remove_row 1).len = exampleTable.len - 1 ∧
      (∀ i, i < 1 → (exampleTable.remove_row 1).rows[i]? = exampleTable.rows[i]?) ∧
      (∀ i, 1 ≤ i → (exampleTable.remove_row 1).rows[i]? = exampleTable.rows[i + 1]?)) :=
  ⟨(remove_row_semantics exampleTable 5).1 (by decide),
   (remove_row_semantics exampleTable 1).2 (by decide)⟩

/-! ## C1: the row-bound check of `set_element` -/

/-- C1 (code bug): the source's row-bound check uses `>` instead of `>=`, so
on a one-column table with zero rows `set_element` at `(column, row) = (0, 0)`
passes both bound checks and reaches the out-of-bounds indexed write — a
panic — instead of returning the row-index error the specification requires
for a row index equal to the current row count. -/
theorem set_element_row_bound_panics :
    ((Table.new ["Title"]).set_element "x" 0 0).2 = SetElementResult.panic ∧
    ((Table.new ["Title"]).set_element "x" 0 0).2 ≠ SetElementResult.rowIndexError :=
  ⟨rfl, by decide⟩

/-! ## C9: the structural invariant -/

theorem add_row_inv (t : Table) (ht : Inv t) (row : Row) : Inv (t.add_row row).1 := by
  unfold Table.add_row
  by_cases h : row.length ≠ t.num_cols
  · rw [if_pos h]
    exact ht
  · rw [if_neg h]
    refine ⟨ht.1, fun r hr => ?_⟩
    rcases List.mem_append.1 hr with hr' | hr'
    · exact ht.2 r hr'
    · rw [List.mem_singleton.1 hr']
      exact not_ne_iff.1 h

theorem set_element_inv (t : Table) (ht : Inv t) (e : String) (c r : Nat) :
    Inv (t.set_element e c r).1 := by
  unfold Table.set_element
  by_cases h1 : c ≥ t.num_cols
  · rw [if_pos h1]
    exact ht
  · rw [if_neg h1]
    by_cases h2 : r > t.rows.length
    · rw [if_pos h2]
      exact ht
    · rw [if_neg h2]
      by_cases h3 : r < t.rows.length ∧ c < (t.rows.getD r []).length
      · rw [if_pos h3]
        refine ⟨ht.1, fun x hx => ?_⟩
        rcases List.mem_or_eq_of_mem_set hx with hx | hx
        · exact ht.2 x hx
        · rw [hx, List.length_set]
          refine ht.2 _ ?_
          rw [List.getD_eq_getElem?_getD, List.getElem?_eq_getElem h3.1]
          exact List.getElem_mem h3.1
      · rw [if_neg h3]
        exact ht

/-- C9: the invariant `titles.length = num_cols ∧ every row has length
num_cols` holds after `new` and is preserved by every table operation. -/
theorem table_invariant_preserved (t : Table) (ht : Inv t) :
    (∀ titles, Inv (Table.new titles)) ∧
    (∀ row, Inv (t.add_row row).1) ∧
    Inv t.add_empty_row.1 ∧
    (∀ e c r, Inv (t.set_element e c r).1) ∧
    (∀ r, Inv (t.remove_row r)) ∧
    (∀ c l x, Inv (t.separators c l x)) := by
  refine ⟨?_, fun row => add_row_inv t ht row, add_row_inv t ht _,
    fun e c r => set_element_inv t ht e c r, ?_, ?_⟩
  · intro titles
    exact ⟨rfl, fun r hr => by simp [Table.new] at hr⟩
  · intro r
    unfold Table.remove_row
    by_cases h : r < t.rows.length
    · simp only [if_pos h]
      exact ⟨ht.1, fun x hx => ht.2 x (List.eraseIdx_subset _ _ hx)⟩
    · simpa [h] using ht
  · intro c l x
    exact ⟨ht.1, ht.2⟩

/-- Witness for C9 at a concrete table. -/
theorem table_invariant_preserved_witness :
    Inv ((Table.new ["a"]).add_row ["x"]).1 :=
  (table_invariant_preserved (Table.new ["a"]) (by decide)).2.1 ["x"]

/-! ## C3: `get_col_width` computes the column maximum -/

/-- The fold of `get_col_width` — keep the larger of the accumulator and each
selected value — yields an upper bound of the start value and of every
selected value, and is attained by one of them. -/
theorem foldl_sel_max (g : Row → Nat) (l : List Row) (a : Nat) :
    a ≤ l.foldl (fun w r => if g r > w then g r else w) a ∧
    (∀ r ∈ l, g r ≤ l.foldl (fun w r => if g r > w then g r else w) a) ∧
    (l.foldl (fun w r => if g r > w then g r else w) a = a ∨
      ∃ r ∈ l, l.foldl (fun w r => if g r > w then g r else w) a = g r) := by
  induction l generalizing a with
  | nil => simp
  | cons x xs ih =>
    rw [List.foldl_cons]
    obtain ⟨h1, h2, h3⟩ := ih (if g x > a then g x else a)
    refine ⟨le_trans (by split <;> omega) h1, ?_, ?_⟩
    · intro r hr
      rcases List.mem_cons.1 hr with rfl | hr'
      · exact le_trans (by split <;> omega) h1
      · exact h2 r hr'
    · rcases h3 with h3 | ⟨r, hr, h3⟩
      · rw [h3]
        split
        · exact Or.inr ⟨x, List.mem_cons_self x xs, rfl⟩
        · exact Or.inl rfl
      · exact Or.inr ⟨r, List.mem_cons_of_mem x hr, h3⟩

/-- For an in-bounds column index, `get_col_width` returns the fold value. -/
theorem get_col_width_ok (t : Table) (i : Nat) (h : i < t.num_cols) :
    t.get_col_width i
      = .ok (t.rows.foldl
          (fun w r => if (r.getD i "").length > w then (r.getD i "").length else w)
          (t.titles.getD i "").length) := by
  unfold Table.get_col_width
  rw [if_neg (by omega)]

/-- The entry of the width vector at an in-bounds index. -/
theorem col_width_vec_getD (t : Table) (i : Nat) (h : i < t.num_cols) :
    t.col_width_vec.getD i 0 = unwrapOrZero (t.get_col_width i) := by
  unfold Table.col_width_vec
  rw [List.getD_eq_getElem?_getD, List.getElem?_map, List.getElem?_range h]
  rfl

/-- C3: for a column index below the column count, `get_col_width` succeeds
and returns the maximum, over the title of that column and every row's cell in
that column, of the cell's character length — an upper bound of all of them,
attained by one of them; for an index at or above the column count it fails
with the column-index error. -/
theorem get_col_width_is_column_max (t : Table) (i : Nat) :
    (i < t.num_cols →
      ∃ w, t.get_col_width i = .ok w ∧
        (t.titles.getD i "").length ≤ w ∧
        (∀ r ∈ t.rows, (r.getD i "").length ≤ w) ∧
        (w = (t.titles.getD i "").length ∨ ∃ r ∈ t.rows, w = (r.getD i "").length)) ∧
    (t.num_cols ≤ i → t.get_col_width i = .error "Column index is too high") := by
  constructor
  · intro h
    obtain ⟨h1, h2, h3⟩ :=
      foldl_sel_max (fun r => (r.getD i "").length) t.rows (t.titles.getD i "").length
    exact ⟨_, get_col_width_ok t i h, h1, h2, h3⟩
  · intro h
    unfold Table.get_col_width
    rw [if_pos (by omega)]

/-- Witness for C3 at the concrete example table: column 0 (width 5) succeeds,
column 2 fails. -/
theorem get_col_width_is_column_max_witness :
    (∃ w, exampleTable.get_col_width 0 = .ok w ∧
      (exampleTable.titles.getD 0 "").length ≤ w ∧
      (∀ r ∈ exampleTable.rows, (r.getD 0 "").length ≤ w) ∧
      (w = (exampleTable.titles.getD 0 "").length ∨
        ∃ r ∈ exampleTable.rows, w = (r.getD 0 "").length)) ∧
    exampleTable.get_col_width 2 = .error "Column index is too high" :=
  ⟨(get_col_width_is_column_max exampleTable 0).1 (by decide),
   (get_col_width_is_column_max exampleTable 2).2 (by decide)⟩

/-! ## C10: totality of `print` under the invariant -/

/-- C10: under the structural invariant `print` is total apart from sink
errors: the width vector has one entry per column, and for every column index
below the column count the `unwrap` of `get_col_width` succeeds, the indexing
of the width vector, the titles and every row is in bounds, and the padding
count `col_width[i] - line[i].len()` never underflows, because the computed
width dominates the title's and every cell's length in that column. -/
theorem print_total_under_invariant (t : Table) (ht : Inv t) :
    t.col_width_vec.length = t.num_cols ∧
    ∀ i, i < t.num_cols →
      (∃ w, t.get_col_width i = .ok w) ∧
      i < t.col_width_vec.length ∧
      i < t.titles.length ∧
      (∀ r ∈ t.rows, i < r.length) ∧
      (t.titles.getD i "").length ≤ t.col_width_vec.getD i 0 ∧
      (∀ r ∈ t.rows, (r.getD i "").length ≤ t.col_width_vec.getD i 0) := by
  have hlen : t.col_width_vec.length = t.num_cols := by
    simp [Table.col_width_vec]
  refine ⟨hlen, fun i hi => ?_⟩
  obtain ⟨h1, h2, _⟩ :=
    foldl_sel_max (fun r => (r.getD i "").length) t.rows (t.titles.getD i "").length
  have hw : t.col_width_vec.getD i 0
      = t.rows.foldl
          (fun w r => if (r.getD i "").length > w then (r.getD i "").length else w)
          (t.titles.getD i "").length := by
    rw [col_width_vec_getD t i hi, get_col_width_ok t i hi]
    rfl
  refine ⟨⟨_, get_col_width_ok t i hi⟩, hlen ▸ hi, ht.1 ▸ hi, ?_, ?_, ?_⟩
  · intro r hr
    rw [ht.2 r hr]
    exact hi
  · rw [hw]
    exact h1
  · intro r hr
    rw [hw]
    exact h2 r hr

/-- Witness for C10 at the concrete example table. -/
theorem print_total_under_invariant_witness :
    exampleTable.col_width_vec.length = exampleTable.num_cols ∧
    ∀ i, i < exampleTable.num_cols →
      (∃ w, exampleTable.get_col_width i = .ok w) ∧
      i < exampleTable.col_width_vec.length ∧
      i < exampleTable.titles.length ∧
      (∀ r ∈ exampleTable.rows, i < r.length) ∧
      (exampleTable.titles.getD i "").length ≤ exampleTable.col_width_vec.getD i 0 ∧
      (∀ r ∈ exampleTable.rows, (r.getD i "").length ≤ exampleTable.col_width_vec.getD i 0) :=
  print_total_under_invariant exampleTable (by decide)

/-! ## C4 and C5: line assembly -/

theorem length_join_replicate (n : Nat) (s : String) :
    (String.join (List.replicate n s)).length = n * s.length := by
  rw [length_join, List.map_replicate, List.sum_replicate, smul_eq_mul]

/-- C5: a rule line's length is one corner plus `width[i] + 2` rule characters
and a corner per column, plus the terminator — `1 + Σ (width[i] + 3)` plus the
terminator — and on the concrete example table (column widths 5 and 3) the
rule line is `+-------+-----+`. -/
theorem rule_line_layout :
    (∀ (t : Table) (w : List Nat),
      (t.print_line_separator w).length
        = 1 + ((List.range t.num_cols).map fun i => w.getD i 0 + 3).sum + LINEFEED.length) ∧
    exampleTable.col_width_vec = [5, 3] ∧
    exampleTable.print_line_separator exampleTable.col_width_vec
      = "+-------+-----+" ++ LINEFEED := by
  refine ⟨?_, rfl, rfl⟩
  intro t w
  unfold Table.print_line_separator
  rw [String.length_append, String.length_append, length_join, List.map_map]
  have hmap : (List.range t.num_cols).map
      (String.length ∘ fun i =>
        String.join (List.replicate (w.getD i 0 + 2) t.line_sep.toString)
          ++ t.sep_cross.toString)
      = (List.range t.num_cols).map fun i => w.getD i 0 + 3 := by
    refine List.map_congr_left fun i _ => ?_
    show (String.join (List.replicate (w.getD i 0 + 2) t.line_sep.toString)
        ++ t.sep_cross.toString).length = w.getD i 0 + 3
    rw [String.length_append, length_join_replicate,
      show t.line_sep.toString.length = 1 from rfl,
      show t.sep_cross.toString.length = 1 from rfl]
    omega
  rw [hmap]
  have h3 : t.sep_cross.toString.length = 1 := rfl
  omega

/-- C4: a content line is the column separator then, per column, one space,
the cell, one space, `width[i] - cell.length` padding spaces and the
separator, then the terminator; when no padding count underflows its length is
`1 + Σ (width[i] + 3)` plus the terminator, and on the concrete example table
the title line is `| Name  | Age |` and the first data line `| Alice | 30  |`. -/
theorem content_line_layout :
    (∀ (t : Table) (line : List String) (w : List Nat),
      (∀ i, i < t.num_cols → (line.getD i "").length ≤ w.getD i 0) →
      (t.print_line line w).length
        = 1 + ((List.range t.num_cols).map fun i => w.getD i 0 + 3).sum + LINEFEED.length) ∧
    exampleTable.print_line exampleTable.titles exampleTable.col_width_vec
      = "| Name  | Age |" ++ LINEFEED ∧
    exampleTable.print_line (exampleTable.rows.getD 0 []) exampleTable.col_width_vec
      = "| Alice | 30  |" ++ LINEFEED := by
  refine ⟨?_, rfl, rfl⟩
  intro t line w h
  unfold Table.print_line
  rw [String.length_append, String.length_append, length_join, List.map_map]
  have hmap : (List.range t.num_cols).map
      (String.length ∘ fun i =>
        " " ++ line.getD i "" ++ " "
          ++ String.join (List.replicate (w.getD i 0 - (line.getD i "").length) " ")
          ++ t.col_sep.toString)
      = (List.range t.num_cols).map fun i => w.getD i 0 + 3 := by
    refine List.map_congr_left fun i hi => ?_
    have hle := h i (List.mem_range.1 hi)
    show (" " ++ line.getD i "" ++ " "
        ++ String.join (List.replicate (w.getD i 0 - (line.getD i "").length) " ")
        ++ t.col_sep.toString).length = w.getD i 0 + 3
    rw [String.length_append, String.length_append, String.length_append,
      String.length_append, length_join_replicate,
      show (" " : String).length = 1 from rfl,
      show t.col_sep.toString.length = 1 from rfl]
    omega
  rw [hmap]
  have h2 : t.col_sep.toString.length = 1 := rfl
  omega

/-- Witness for C4's padded-length formula at the concrete example table. -/
theorem content_line_layout_witness :
    (exampleTable.print_line exampleTable.titles exampleTable.col_width_vec).length
      = 1 + ((List.range exampleTable.num_cols).map
          fun i => exampleTable.col_width_vec.getD i 0 + 3).sum + LINEFEED.length :=
  content_line_layout.1 exampleTable exampleTable.titles exampleTable.col_width_vec (by decide)

/-! ## C2: the emitted line sequence -/

theorem flatMap_pair_length {α : Type} (l : List α) (f g : α → String) :
    (l.flatMap fun r => [f r, g r]).length = 2 * l.length := by
  induction l with
  | nil => rfl
  | cons x xs ih =>
    rw [List.flatMap_cons, List.length_append, ih]
    show 2 + 2 * xs.length = 2 * (x :: xs).length
    rw [List.length_cons]
    omega

theorem join_flatMap_pair {α : Type} (l : List α) (f g : α → String) :
    String.join (l.flatMap fun r => [f r, g r]) = String.join (l.map fun r => f r ++ g r) := by
  induction l with
  | nil => rfl
  | cons x xs ih =>
    rw [List.flatMap_cons, List.map_cons, join_append, join_cons, ih, join_cons, join_cons,
      show String.join ([] : List String) = "" from rfl, String.append_empty,
      String.append_assoc]

/-- C2: `print` emits exactly `2 * rows + 3` lines — its output is the
concatenation of the line list `print_lines`, which has length
`2 * rows + 3` and consists of rule, title line, rule, then a content line
and a rule per row in insertion order; zero rows give exactly 3 lines. -/
theorem print_emits_two_r_plus_three_lines (t : Table) :
    t.print = String.join t.print_lines ∧
    t.print_lines.length = 2 * t.rows.length + 3 ∧
    (t.rows = [] → t.print_lines.length = 3) := by
  have hlen : t.print_lines.length = 2 * t.rows.length + 3 := by
    unfold Table.print_lines
    rw [List.length_append, flatMap_pair_length]
    show 3 + 2 * t.rows.length = 2 * t.rows.length + 3
    omega
  refine ⟨?_, hlen, fun h => by rw [hlen, h]; simp⟩
  unfold Table.print Table.print_lines
  rw [join_append, join_flatMap_pair, join_cons, join_cons, join_cons,
    show String.join ([] : List String) = "" from rfl, String.append_empty]
  simp [String.append_assoc]

/-- Witness for C2's zero-row case at a concrete table with no rows. -/
theorem print_emits_two_r_plus_three_lines_witness :
    (Table.new ["a"]).print_lines.length = 3 :=
  (print_emits_two_r_plus_three_lines (Table.new ["a"])).2.2 rfl

/-! ## C8: the `Display` (string) render agrees with the byte render -/

/-- Decoding the UTF-8 encoding of one character at the front of a byte
stream yields that character and continues with the rest. -/
theorem utf8DecodeLoop_encodeChar (c : Char) (bs : List Nat) :
    utf8DecodeLoop (utf8EncodeChar c ++ bs) 0 0 0
      = (utf8DecodeLoop bs 0 0 0).map (c :: ·) := by
  have hvalid : c.toNat < 0xD800 ∨ (0xDFFF < c.toNat ∧ c.toNat < 0x110000) := c.valid
  have hofNat : Char.ofNat c.toNat = c := Char.ofNat_toNat c
  unfold utf8EncodeChar
  by_cases h1 : c.toNat < 0x80
  · rw [if_pos h1]
    show utf8DecodeLoop (c.toNat :: bs) 0 0 0 = _
    rw [utf8DecodeLoop.eq_2, if_pos rfl, if_pos h1, hofNat]
  · rw [if_neg h1]
    by_cases h2 : c.toNat < 0x800
    · rw [if_pos h2]
      show utf8DecodeLoop ((0xC0 + c.toNat / 64) :: (0x80 + c.toNat % 64) :: bs) 0 0 0 = _
      rw [utf8DecodeLoop.eq_2, if_pos rfl, if_neg (by omega), if_pos (by omega)]
      rw [utf8DecodeLoop.eq_2, if_neg (by omega), if_pos (by omega), if_pos rfl,
        if_pos (by omega)]
      have hval : (0xC0 + c.toNat / 64 - 0xC0) * 64 + (0x80 + c.toNat % 64 - 0x80)
          = c.toNat := by omega
      rw [hval, hofNat]
    · rw [if_neg h2]
      by_cases h3 : c.toNat < 0x10000
      · rw [if_pos h3]
        show utf8DecodeLoop ((0xE0 + c.toNat / 4096) :: (0x80 + c.toNat / 64 % 64)
            :: (0x80 + c.toNat % 64) :: bs) 0 0 0 = _
        rw [utf8DecodeLoop.eq_2, if_pos rfl, if_neg (by omega), if_neg (by omega),
          if_pos (by omega)]
        rw [utf8DecodeLoop.eq_2, if_neg (by omega), if_pos (by omega), if_neg (by omega)]
        rw [utf8DecodeLoop.eq_2, if_neg (by omega), if_pos (by omega), if_pos (by omega),
          if_pos (by omega)]
        have hval : ((0xE0 + c.toNat / 4096 - 0xE0) * 64 + (0x80 + c.toNat / 64 % 64 - 0x80))
              * 64 + (0x80 + c.toNat % 64 - 0x80)
            = c.toNat := by omega
        rw [hval, hofNat]
      · rw [if_neg h3]
        show utf8DecodeLoop ((0xF0 + c.toNat / 262144) :: (0x80 + c.toNat / 4096 % 64)
            :: (0x80 + c.toNat / 64 % 64) :: (0x80 + c.toNat % 64) :: bs) 0 0 0 = _
        rw [utf8DecodeLoop.eq_2, if_pos rfl, if_neg (by omega), if_neg (by omega),
          if_neg (by omega), if_pos (by omega)]
        rw [utf8DecodeLoop.eq_2, if_neg (by omega), if_pos (by omega), if_neg (by omega)]
        rw [utf8DecodeLoop.eq_2, if_neg (by omega), if_pos (by omega), if_neg (by omega)]
        rw [utf8DecodeLoop.eq_2, if_neg (by omega), if_pos (by omega), if_pos (by omega),
          if_pos (by omega)]
        have hval : (((0xF0 + c.toNat / 262144 - 0xF0) * 64
              + (0x80 + c.toNat / 4096 % 64 - 0x80)) * 64
              + (0x80 + c.toNat / 64 % 64 - 0x80)) * 64 + (0x80 + c.toNat % 64 - 0x80)
            = c.toNat := by omega
        rw [hval, hofNat]

/-- Decoding the UTF-8 encoding of a character list gives it back. -/
theorem utf8DecodeLoop_encode_data (cs : List Char) :
    utf8DecodeLoop (cs.flatMap utf8EncodeChar) 0 0 0 = some cs := by
  induction cs with
  | nil => rfl
  | cons c cs ih =>
    rw [List.flatMap_cons, utf8DecodeLoop_encodeChar, ih]
    rfl

/-- Decoding the UTF-8 encoding of a string gives it back. -/
theorem utf8DecodeString_encode (s : String) :
    utf8DecodeString (utf8Encode s) = some s := by
  unfold utf8DecodeString utf8DecodeChars utf8Encode
  rw [utf8DecodeLoop_encode_data]
  rfl

/-- C8: the `Display` render — `print` through the in-memory `StringWriter`
sink — succeeds and produces exactly the text whose UTF-8 bytes the
sink-based render emits: decoding the byte stream gives the same string, and
splitting on the line terminator gives the same lines. -/
theorem display_refines_sink_render (t : Table) :
    t.to_display_string = some t.print ∧
    utf8DecodeString t.print_bytes = some t.print ∧
    t.to_display_string.map (fun s => s.splitOn LINEFEED)
      = some (t.print.splitOn LINEFEED) := by
  have hdec : utf8DecodeString t.print_bytes = some t.print :=
    utf8DecodeString_encode t.print
  have hw : StringWriter.new.write t.print_bytes = .ok ⟨"" ++ t.print⟩ := by
    unfold StringWriter.write
    rw [hdec]
    rfl
  have hdisp : t.to_display_string = some t.print := by
    unfold Table.to_display_string
    rw [hw]
    show some ("" ++ t.print) = some t.print
    rw [String.empty_append]
  refine ⟨hdisp, hdec, ?_⟩
  rw [hdisp]
  rfl

end Tabprint
